import Mathlib

/-!
Shallow embedding of `SilverSniperSpotifySongDownloader` (src/main.py) and
verification of its specification claims.

The program resolves a Spotify catalog URL into track metadata and downloads a
best-effort audio match per track.  External services (the Spotify client, the
yt-dlp downloader, the filesystem) are modelled as explicit records of
functions; the pure helpers (`extract_spotify_id`, `build_query`,
`sanitize_filename`) are translated directly.
-/

namespace SpotifyDL

/-! ## Filename sanitizer (src/main.py, sanitize_filename)

`re.sub(r'[\\/*?:"<>|]', "", name)`: every character matched by the class is
replaced by the empty string, scanning left to right. -/

/-- The nine characters of the character class in `sanitize_filename`. -/
def illegalChar (c : Char) : Bool :=
  c = '\\' || c = '/' || c = '*' || c = '?' || c = ':' ||
  c = '"' || c = '<' || c = '>' || c = '|'

/-- `re.sub` with the single-character class and empty replacement: scan the
characters in order; a matching character is dropped, any other kept. -/
def reSubRemove : List Char → List Char
  | [] => []
  | c :: cs => if illegalChar c then reSubRemove cs else c :: reSubRemove cs

/-- `sanitize_filename` from src/main.py. -/
def sanitize_filename (name : String) : String :=
  String.mk (reSubRemove name.data)

/-! ## Query builder (src/main.py, build_query)

Track records are Spotify JSON dicts; the code reads `track.get("artists", [])`
(each artist a dict with a `"name"` key) and `track.get("name", "")`, so we
model exactly those fields, `Option` marking an absent key. -/

structure ArtistRec where
  name : String
deriving DecidableEq, Repr

structure TrackRec where
  artists : Option (List ArtistRec)
  name : Option String
deriving DecidableEq, Repr

/-- `build_query` from src/main.py:
`", ".join([a["name"] for a in track.get("artists", [])])`, then the f-string
`f"{artist} - {title} official audio"` with `title = track.get("name", "")`. -/
def build_query (track : TrackRec) : String :=
  let artist := String.intercalate ", " ((track.artists.getD []).map ArtistRec.name)
  let title := track.name.getD ""
  artist ++ " - " ++ title ++ " official audio"

/-! ## URL parser (src/main.py, extract_spotify_id)

`re.search(r"open\.spotify\.com/(track|album|playlist)/([a-zA-Z0-9]+)", url)`.
The pattern is a literal, an alternation of three literals (whose first
characters are pairwise distinct, so at most one branch can match at a given
position and the engine's alternation backtracking is equivalent to trying the
branches once each), a literal `/`, and a greedy non-empty alphanumeric run
with nothing after it (so the greedy run is the maximal run).  `re.search`
tries each start position from the left and returns the first success. -/

/-- The character class `[a-zA-Z0-9]`. -/
def isAlnumChar (c : Char) : Bool :=
  ('a' ≤ c && c ≤ 'z') || ('A' ≤ c && c ≤ 'Z') || ('0' ≤ c && c ≤ '9')

/-- Match a literal character sequence at the start of the input, returning the
remainder on success. -/
def matchLit : List Char → List Char → Option (List Char)
  | [], cs => some cs
  | _ :: _, [] => none
  | p :: ps, c :: cs => if c = p then matchLit ps cs else none

/-- The alternation `(track|album|playlist)`, branches tried left to right,
returning the capture of group 1 and the remainder. -/
def matchTypeAlt (cs : List Char) : Option (String × List Char) :=
  match matchLit "track".data cs with
  | some r => some ("track", r)
  | none =>
    match matchLit "album".data cs with
    | some r => some ("album", r)
    | none =>
      match matchLit "playlist".data cs with
      | some r => some ("playlist", r)
      | none => none

/-- Attempt the whole pattern anchored at the start of `cs`, returning the two
captured groups.  Group 2 is the maximal (greedy) alphanumeric run, required
non-empty. -/
def matchAt (cs : List Char) : Option (String × String) :=
  match matchLit "open.spotify.com/".data cs with
  | none => none
  | some rest =>
    match matchTypeAlt rest with
    | none => none
    | some (t, rest2) =>
      match matchLit ['/'] rest2 with
      | none => none
      | some rest3 =>
        if (rest3.takeWhile isAlnumChar).isEmpty then none
        else some (t, String.mk (rest3.takeWhile isAlnumChar))

/-- `re.search`: try `matchAt` at every start position, leftmost first. -/
def reSearch : List Char → Option (String × String)
  | [] => matchAt []
  | c :: cs =>
    match matchAt (c :: cs) with
    | some r => some r
    | none => reSearch cs

/-- `extract_spotify_id` from src/main.py: `(match.group(1), match.group(2))`
on a match, `(None, None)` otherwise. -/
def extract_spotify_id (url : String) : Option String × Option String :=
  match reSearch url.data with
  | some (t, i) => (some t, some i)
  | none => (none, none)

/-- Spec-side predicate (C1): `cs` decomposes around an occurrence of
`open.spotify.com/<t>/<i>` where `t` is one of the three catalog types and
`i` a non-empty alphanumeric run. -/
def specMatch (cs t i : List Char) : Prop :=
  (t = "track".data ∨ t = "album".data ∨ t = "playlist".data) ∧
  i ≠ [] ∧ (∀ c ∈ i, isAlnumChar c = true) ∧
  ∃ pre post, cs = pre ++ "open.spotify.com/".data ++ t ++ '/' :: (i ++ post)

/-! ## Catalog client adapter (src/main.py, get_items_from_spotify)

The spotipy responses are JSON dicts; we model exactly the keys the code
reads, `Option` marking a possibly absent key. -/

/-- Python truthiness of the value of an optional string field
(`if tid:`): present and non-empty. -/
def pyTruthyStr : Option String → Bool
  | none => false
  | some s => !s.isEmpty

structure AlbumRec where
  name : Option String
deriving DecidableEq, Repr

/-- One entry of `sp.album_tracks(...)['items']`: the code reads only
`track_info.get("id")`. -/
structure AlbumTrackInfo where
  id : Option String
deriving DecidableEq, Repr

/-- One entry of `playlist["tracks"]["items"]`: the code reads only
`item.get("track")`. -/
structure PlaylistItem where
  track : Option TrackRec
deriving DecidableEq, Repr

structure PlaylistRec where
  name : Option String
  tracks : List PlaylistItem
deriving DecidableEq, Repr

/-- The part of the spotipy client surface the program calls, modelled as
total functions: a run in which every service request succeeds (service
errors are logged and re-raised by the adapter, terminating the run). -/
structure SpotifyClient where
  track : String → TrackRec
  album : String → AlbumRec
  album_tracks : String → List AlbumTrackInfo
  playlist : String → PlaylistRec

/-- The album branch loop: `for track_info in album_tracks: tid =
track_info.get("id"); if tid: items.append(sp.track(tid))`.  Returns the
appended items together with the ids passed to `sp.track`, in call order. -/
def albumLoop (sp : SpotifyClient) : List AlbumTrackInfo → List TrackRec × List String
  | [] => ([], [])
  | ti :: rest =>
    if pyTruthyStr ti.id then
      ((sp.track (ti.id.getD "")) :: (albumLoop sp rest).1,
        ti.id.getD "" :: (albumLoop sp rest).2)
    else albumLoop sp rest

/-- The playlist branch loop: `track_obj = item.get("track"); if track_obj:
items.append(track_obj)`.  (A present track dict is modelled as truthy.) -/
def playlistLoop : List PlaylistItem → List TrackRec
  | [] => []
  | it :: rest =>
    match it.track with
    | some tr => tr :: playlistLoop rest
    | none => playlistLoop rest

/-- The result of `get_items_from_spotify`, instrumented with `trackCalls`:
the ids passed to the per-track lookup `sp.track`, in call order. -/
structure FetchResult where
  items : List TrackRec
  name : String
  trackCalls : List String
deriving DecidableEq, Repr

/-- `get_items_from_spotify` from src/main.py.  The `ValueError` raised on an
unknown url type (re-raised by the `except` clause) is `Except.error`. -/
def get_items_from_spotify (sp : SpotifyClient) (url_type spotify_id : String) :
    Except String FetchResult :=
  if url_type = "track" then
    .ok ⟨[sp.track spotify_id], (sp.track spotify_id).name.getD "Unknown Track",
         [spotify_id]⟩
  else if url_type = "album" then
    .ok ⟨(albumLoop sp (sp.album_tracks spotify_id)).1,
         (sp.album spotify_id).name.getD "Unknown Album",
         (albumLoop sp (sp.album_tracks spotify_id)).2⟩
  else if url_type = "playlist" then
    .ok ⟨playlistLoop (sp.playlist spotify_id).tracks,
         (sp.playlist spotify_id).name.getD "Unknown Playlist", []⟩
  else
    .error "Unknown Spotify URL type encountered."

/-! ## Media locator/downloader (src/main.py, download_song) -/

/-- `os.path.join` for the always-relative second arguments the program
builds. -/
def pathJoin (a b : String) : String := a ++ "/" ++ b

/-- One search result: the code reads `video.get("webpage_url")`. -/
structure VideoInfo where
  webpage_url : Option String
deriving DecidableEq, Repr

/-- The dict returned by `ydl.extract_info`: the code checks
`"entries" in info` and reads `info["entries"]`. -/
structure InfoDict where
  entries : Option (List VideoInfo)
deriving DecidableEq, Repr

/-- Externally observable behaviour of the yt-dlp session and the filesystem
during one `download_song` call: the search (`extract_info`), the download and
transcode of a video URL (`download`, whose `Except.error` models a raised
exception, e.g. a transcoding failure), and the post-condition existence check
on the filesystem after the download step. -/
structure YdlEnv where
  extract_info : String → Except String InfoDict
  download : Option String → Except String Unit
  pathExists : String → Bool

/-- `download_song` from src/main.py.  The body is one `try` block: an
exception raised by `extract_info` or `download` is caught and logged and the
function falls through to `return None`.  It returns
`<downloads_dir>/<base_filename>.mp3` only if that exact path exists after the
download step. -/
def download_song (env : YdlEnv) (query downloads_dir base_filename : String) :
    Option String :=
  match env.extract_info ("ytsearch:" ++ query) with
  | .error _ => none
  | .ok info =>
    match info.entries with
    | some (video :: _) =>
      match env.download video.webpage_url with
      | .error _ => none
      | .ok _ =>
        if env.pathExists (pathJoin downloads_dir (base_filename ++ ".mp3")) then
          some (pathJoin downloads_dir (base_filename ++ ".mp3"))
        else none
    | _ => none

/-! ## Orchestrator (src/main.py, main) -/

/-- One `download_song` invocation planned by `main`: target directory,
search query, and base filename. -/
structure DownloadCall where
  dir : String
  query : String
  base : String
deriving DecidableEq, Repr

/-- The filesystem/download actions of one run past the fetch: the
directories created (in order) and the download calls issued (in submission
order). -/
structure MainPlan where
  createdDirs : List String
  calls : List DownloadCall
deriving DecidableEq, Repr

/-- The base downloads directory, `os.path.join(os.getcwd(), "downloads")`,
as a path relative to the working directory. -/
def downloadsDirName : String := "downloads"

/-- The base filename derived for a track: sanitized `"artist - title"`
(src/main.py lines 138-140 and 156-158). -/
def trackBase (track : TrackRec) : String :=
  sanitize_filename
    (String.intercalate ", " ((track.artists.getD []).map ArtistRec.name) ++ " - " ++
      track.name.getD "")

/-- The dispatch of `main` after a successful fetch (src/main.py lines
129-160): which directories it creates and which download calls it issues.
`none` models the uncaught `IndexError` of `items[0]` on an empty list
(unreachable through `get_items_from_spotify`, whose "track" branch always
returns one item). -/
def mainDispatch (url_type : String) (items : List TrackRec)
    (collection_name : String) : Option MainPlan :=
  if url_type = "track" ∨ items.length = 1 then
    match items.head? with
    | none => none
    | some track =>
      some ⟨[downloadsDirName],
            [⟨downloadsDirName, build_query track, trackBase track⟩]⟩
  else
    some ⟨[downloadsDirName, pathJoin downloadsDirName (sanitize_filename collection_name)],
          items.map fun track =>
            ⟨pathJoin downloadsDirName (sanitize_filename collection_name),
             build_query track, trackBase track⟩⟩

/-- The result-collection loop of the multi-item flow: `for future in
futures: result = future.result(); if result: downloaded.append(result)`
(the emptiness test is Python string truthiness). -/
def collectDownloaded : List (Option String) → List String
  | [] => []
  | none :: rest => collectDownloaded rest
  | some s :: rest =>
    if s.isEmpty then collectDownloaded rest else s :: collectDownloaded rest

/-- The final report of the multi-item flow: the success log line carries
`len(downloaded)`; with nothing downloaded an error line is logged instead
(and in either case the run ends normally). -/
def reportLine (downloaded : List String) (folder : String) : String :=
  if downloaded.isEmpty then
    "Failed to download any tracks from the collection."
  else
    "Successfully downloaded " ++ toString downloaded.length ++ " tracks to " ++ folder

/-! ## Worker pool (src/main.py lines 162-169)

Each submitted task is independent and pure in this model; a future is a slot
that is empty until its task completes and then holds that task's own result.
A completion schedule is the list of task indices in completion order. -/

/-- Play a completion schedule: each completing task stores its own result
(`tasks.getD i none`) into its future's slot. -/
def runCompletions (tasks : List (Option String)) :
    List Nat → (Nat → Option (Option String)) → Nat → Option (Option String)
  | [], slots => slots
  | i :: rest, slots =>
    runCompletions tasks rest
      (fun j => if j = i then some (tasks.getD i none) else slots j)

/-- After the join, `main` reads every future in submission order
(`for future in futures`), task `i`'s future holding `slots i`. -/
def joinResults (slots : Nat → Option (Option String)) (n : Nat) :
    List (Option String) :=
  (List.range n).map (fun i => (slots i).getD none)

/-! ## Concrete instances used to evaluate the theorems -/

/-- A client whose album listing holds a single entry carrying no `"id"`
key. -/
def noIdClient : SpotifyClient where
  track := fun _ => ⟨none, none⟩
  album := fun _ => ⟨none⟩
  album_tracks := fun _ => [⟨none⟩]
  playlist := fun _ => ⟨none, []⟩

/-- A downloader environment whose search returns an empty result list. -/
def emptySearchEnv : YdlEnv where
  extract_info := fun _ => .ok ⟨some []⟩
  download := fun _ => .ok ()
  pathExists := fun _ => true

/-- A downloader environment whose search returns one result and whose
download and existence check succeed. -/
def okEnv : YdlEnv where
  extract_info := fun _ => .ok ⟨some [⟨some "u"⟩]⟩
  download := fun _ => .ok ()
  pathExists := fun _ => true

end SpotifyDL

namespace SpotifyDL

/-- The removal scan keeps exactly the characters the class does not match,
in order. -/
theorem reSubRemove_eq_filter (l : List Char) :
    reSubRemove l = l.filter (fun c => illegalChar c = false) := by
  induction l with
  | nil => rfl
  | cons c cs ih =>
    by_cases h : illegalChar c
    · simp [reSubRemove, h, List.filter, ih]
    · simp [reSubRemove, h, List.filter, ih]

/-- C2: `sanitize_filename s` is exactly `s` with every occurrence of the nine
characters `\ / * ? : " < > |` removed and every other character kept,
unaltered and in order (i.e. the character list is filtered by the predicate
"not one of the nine"); in particular `"A/B:C?"` maps to `"ABC"`. -/
theorem sanitize_filename_spec (s : String) :
    (sanitize_filename s).data = s.data.filter (fun c => illegalChar c = false) ∧
    sanitize_filename "A/B:C?" = "ABC" := by
  refine ⟨?_, by decide⟩
  simp [sanitize_filename, reSubRemove_eq_filter]

/-- C10: `sanitize_filename` is idempotent — sanitizing an already sanitized
name changes nothing. -/
theorem sanitize_filename_idempotent (s : String) :
    sanitize_filename (sanitize_filename s) = sanitize_filename s := by
  simp [sanitize_filename, reSubRemove_eq_filter, List.filter_filter]

/-- C3: `build_query` on a track with artist names `a1, …, an` and title `t`
returns `"a1, a2, …, an - t official audio"`; an absent artists list or title
degrades to an empty segment, and the `[{"name":"A"},{"name":"B"}]`,
`"Song"` example yields `"A, B - Song official audio"`.  (Determinism and
purity hold by construction: `build_query` is a function of the record.) -/
theorem build_query_spec (names : List String) (t : String) :
    build_query ⟨some (names.map ArtistRec.mk), some t⟩ =
      String.intercalate ", " names ++ " - " ++ t ++ " official audio" ∧
    build_query ⟨none, none⟩ = " -  official audio" ∧
    build_query ⟨some [⟨"A"⟩, ⟨"B"⟩], some "Song"⟩ = "A, B - Song official audio" := by
  refine ⟨?_, by decide, by decide⟩
  simp only [build_query, Option.getD_some, List.map_map]
  have : ArtistRec.name ∘ ArtistRec.mk = id := rfl
  rw [this, List.map_id]

/-- `matchLit` succeeds exactly on inputs that start with the literal, and
returns the remainder. -/
theorem matchLit_eq_some (p : List Char) : ∀ cs r, matchLit p cs = some r ↔ cs = p ++ r := by
  induction p with
  | nil => intro cs r; simp [matchLit]
  | cons a ps ih =>
    intro cs r
    cases cs with
    | nil => simp [matchLit]
    | cons c cs' =>
      by_cases h : c = a
      · subst h; simp [matchLit, ih]
      · simp [matchLit, h]

/-- Soundness of the alternation: a success names one of the three types and
consumes exactly its characters. -/
theorem matchTypeAlt_sound (cs : List Char) (t : String) (r : List Char)
    (h : matchTypeAlt cs = some (t, r)) :
    (t = "track" ∨ t = "album" ∨ t = "playlist") ∧ cs = t.data ++ r := by
  unfold matchTypeAlt at h
  cases h1 : matchLit "track".data cs with
  | some r1 =>
    rw [h1] at h
    simp only [Option.some.injEq, Prod.mk.injEq] at h
    obtain ⟨ht, hr⟩ := h
    subst ht; subst hr
    exact ⟨Or.inl rfl, (matchLit_eq_some _ _ _).mp h1⟩
  | none =>
    rw [h1] at h
    cases h2 : matchLit "album".data cs with
    | some r2 =>
      rw [h2] at h
      simp only [Option.some.injEq, Prod.mk.injEq] at h
      obtain ⟨ht, hr⟩ := h
      subst ht; subst hr
      exact ⟨Or.inr (Or.inl rfl), (matchLit_eq_some _ _ _).mp h2⟩
    | none =>
      rw [h2] at h
      cases h3 : matchLit "playlist".data cs with
      | some r3 =>
        rw [h3] at h
        simp only [Option.some.injEq, Prod.mk.injEq] at h
        obtain ⟨ht, hr⟩ := h
        subst ht; subst hr
        exact ⟨Or.inr (Or.inr rfl), (matchLit_eq_some _ _ _).mp h3⟩
      | none => rw [h3] at h; exact absurd h (by simp)

/-- Completeness of the alternation: an input beginning with one of the three
type literals is matched (the three literals start with pairwise distinct
characters, so the branches cannot interfere). -/
theorem matchTypeAlt_complete (t : List Char) (r : List Char)
    (ht : t = "track".data ∨ t = "album".data ∨ t = "playlist".data) :
    ∃ ts : String, ts.data = t ∧ matchTypeAlt (t ++ r) = some (ts, r) := by
  rcases ht with h | h | h <;> subst h
  · refine ⟨"track", rfl, ?_⟩
    unfold matchTypeAlt
    rw [(matchLit_eq_some "track".data _ r).mpr rfl]
  · refine ⟨"album", rfl, ?_⟩
    unfold matchTypeAlt
    have h1 : matchLit "track".data ("album".data ++ r) = none := by
      cases h : matchLit "track".data ("album".data ++ r) with
      | none => rfl
      | some r' =>
        have := (matchLit_eq_some _ _ _).mp h
        simp at this
    rw [h1, (matchLit_eq_some "album".data _ r).mpr rfl]
  · refine ⟨"playlist", rfl, ?_⟩
    unfold matchTypeAlt
    have h1 : matchLit "track".data ("playlist".data ++ r) = none := by
      cases h : matchLit "track".data ("playlist".data ++ r) with
      | none => rfl
      | some r' =>
        have := (matchLit_eq_some _ _ _).mp h
        simp at this
    have h2 : matchLit "album".data ("playlist".data ++ r) = none := by
      cases h : matchLit "album".data ("playlist".data ++ r) with
      | none => rfl
      | some r' =>
        have := (matchLit_eq_some _ _ _).mp h
        simp at this
    rw [h1, h2, (matchLit_eq_some "playlist".data _ r).mpr rfl]

/-- A head of `dropWhile p` does not satisfy `p`. -/
theorem head_of_dropWhile_false (p : α → Bool) (l : List α) (c : α)
    (h : (l.dropWhile p).head? = some c) : p c = false := by
  induction l with
  | nil => simp [List.dropWhile] at h
  | cons a l ih =>
    rw [List.dropWhile_cons] at h
    by_cases ha : p a
    · rw [if_pos ha] at h; exact ih h
    · rw [if_neg ha] at h
      simp only [List.head?_cons, Option.some.injEq] at h
      subst h
      exact Bool.eq_false_iff.mpr ha

/-- Soundness of `matchAt`: a success at a position yields a valid type, a
non-empty alphanumeric identifier, and a decomposition of the input; the
identifier run is maximal (the remainder does not begin alphanumerically). -/
theorem matchAt_sound (cs : List Char) (t i : String) (h : matchAt cs = some (t, i)) :
    (t = "track" ∨ t = "album" ∨ t = "playlist") ∧
    i.data ≠ [] ∧ (∀ c ∈ i.data, isAlnumChar c = true) ∧
    ∃ post, cs = "open.spotify.com/".data ++ t.data ++ '/' :: (i.data ++ post) ∧
      (∀ c, post.head? = some c → isAlnumChar c = false) := by
  unfold matchAt at h
  split at h
  · exact absurd h (by simp)
  rename_i rest hlit
  split at h
  · exact absurd h (by simp)
  rename_i tr t' rest2 halt
  split at h
  · exact absurd h (by simp)
  rename_i rest3 hsl
  by_cases hi : (rest3.takeWhile isAlnumChar).isEmpty
  · rw [if_pos hi] at h; exact absurd h (by simp)
  rw [if_neg hi] at h
  simp only [Option.some.injEq, Prod.mk.injEq] at h
  obtain ⟨rfl, rfl⟩ := h
  obtain ⟨hty, hrest⟩ := matchTypeAlt_sound rest t' rest2 halt
  refine ⟨hty, ?_, ?_, rest3.dropWhile isAlnumChar, ?_, ?_⟩
  · exact List.isEmpty_eq_false.mp (Bool.eq_false_iff.mpr hi)
  · intro c hc
    exact List.mem_takeWhile_imp hc
  · have h2 : rest2 = '/' :: rest3 := (matchLit_eq_some _ _ _).mp hsl
    have h1 : cs = "open.spotify.com/".data ++ rest := (matchLit_eq_some _ _ _).mp hlit
    rw [h1, hrest, h2]
    have h3 : (String.mk (rest3.takeWhile isAlnumChar)).data ++ rest3.dropWhile isAlnumChar
        = rest3 := List.takeWhile_append_dropWhile isAlnumChar rest3
    rw [h3, List.append_assoc]
  · intro c hc
    exact head_of_dropWhile_false isAlnumChar rest3 c hc

/-- Completeness of `matchAt`: an input that is literally
`open.spotify.com/<t>/<i><post>` with `t` a catalog type and `i` a non-empty
alphanumeric run is matched. -/
theorem matchAt_complete (t i post : List Char)
    (ht : t = "track".data ∨ t = "album".data ∨ t = "playlist".data)
    (hi : i ≠ []) (ha : ∀ c ∈ i, isAlnumChar c = true) :
    (matchAt ("open.spotify.com/".data ++ t ++ '/' :: (i ++ post))).isSome := by
  obtain ⟨ts, hts, halt⟩ := matchTypeAlt_complete t ('/' :: (i ++ post)) ht
  unfold matchAt
  rw [List.append_assoc]
  simp only [(matchLit_eq_some "open.spotify.com/".data _ (t ++ '/' :: (i ++ post))).mpr rfl,
    halt, (matchLit_eq_some ['/'] ('/' :: (i ++ post)) (i ++ post)).mpr rfl]
  cases i with
  | nil => exact absurd rfl hi
  | cons c i' =>
    have hc : isAlnumChar c = true := ha c (List.mem_cons_self c i')
    rw [List.cons_append, List.takeWhile_cons, if_pos hc]
    simp

/-- A successful `re.search` happens at some suffix of the input. -/
theorem reSearch_some (cs : List Char) (r : String × String) (h : reSearch cs = some r) :
    ∃ s, s <:+ cs ∧ matchAt s = some r := by
  induction cs with
  | nil => exact ⟨[], List.suffix_rfl, h⟩
  | cons c cs ih =>
    unfold reSearch at h
    split at h
    · rename_i r' hm
      simp only [Option.some.injEq] at h
      subst h
      exact ⟨c :: cs, List.suffix_rfl, hm⟩
    · obtain ⟨s, hs, hms⟩ := ih h
      exact ⟨s, hs.trans (List.suffix_cons c cs), hms⟩

/-- A failing `re.search` means the pattern matches at no suffix. -/
theorem reSearch_none (cs : List Char) (h : reSearch cs = none) :
    ∀ s, s <:+ cs → matchAt s = none := by
  induction cs with
  | nil =>
    intro s hs
    rw [List.suffix_nil.mp hs]
    exact h
  | cons c cs ih =>
    unfold reSearch at h
    split at h
    · exact absurd h (by simp)
    rename_i hm
    intro s hs
    rcases List.suffix_cons_iff.mp hs with heq | hsuf
    · rw [heq]; exact hm
    · exact ih h s hsuf

/-- C1: `extract_spotify_id` returns a present pair exactly when the input
contains a substring `open.spotify.com/<type>/<identifier>` with the type one
of track/album/playlist and the identifier a non-empty alphanumeric run, and
the returned strings are captured substrings of the input (they occur in such
a decomposition); on any other input it returns `(none, none)`.  It is a total
function, so it never raises. -/
theorem extract_spotify_id_spec (url : String) :
    (∃ t i, extract_spotify_id url = (some t, some i) ∧ specMatch url.data t.data i.data) ∨
    (extract_spotify_id url = (none, none) ∧ ∀ t i, ¬ specMatch url.data t i) := by
  unfold extract_spotify_id
  cases hr : reSearch url.data with
  | some r =>
    obtain ⟨t, i⟩ := r
    left
    refine ⟨t, i, rfl, ?_⟩
    obtain ⟨s, hs, hm⟩ := reSearch_some _ _ hr
    obtain ⟨pre, hpre⟩ := hs
    obtain ⟨hty, hne, ha, post, hdec, _⟩ := matchAt_sound s t i hm
    refine ⟨?_, hne, ha, pre, post, ?_⟩
    · rcases hty with h | h | h <;> subst h
      · exact Or.inl rfl
      · exact Or.inr (Or.inl rfl)
      · exact Or.inr (Or.inr rfl)
    · rw [← hpre, hdec]
      simp [List.append_assoc]
  | none =>
    right
    refine ⟨rfl, ?_⟩
    rintro t i ⟨ht, hne, ha, pre, post, hdec⟩
    have hsuf : ("open.spotify.com/".data ++ t ++ '/' :: (i ++ post)) <:+ url.data := by
      refine ⟨pre, ?_⟩
      rw [hdec]
      simp [List.append_assoc]
    have hnone := reSearch_none _ hr _ hsuf
    have hsome := matchAt_complete t i post ht hne ha
    rw [hnone] at hsome
    exact absurd hsome (by simp)

example : extract_spotify_id "https://open.spotify.com/track/abc123" =
    (some "track", some "abc123") := by decide
example : extract_spotify_id "not a url" = (none, none) := by decide
example : extract_spotify_id "open.spotify.com/album/x9Y?si=3" =
    (some "album", some "x9Y") := by decide

/-- The album loop performs one `sp.track` call per listing entry with a
truthy id, in listing order, and appends exactly the fetched records. -/
theorem albumLoop_spec (sp : SpotifyClient) (l : List AlbumTrackInfo) :
    (albumLoop sp l).2 = l.filterMap
      (fun ti => if pyTruthyStr ti.id then some (ti.id.getD "") else none) ∧
    (albumLoop sp l).1 = (albumLoop sp l).2.map sp.track := by
  induction l with
  | nil => exact ⟨rfl, rfl⟩
  | cons ti rest ih =>
    by_cases h : pyTruthyStr ti.id
    · simp [albumLoop, h, List.filterMap_cons, ih.1, ih.2]
    · simp [albumLoop, h, List.filterMap_cons, ih.1, ih.2]

/-- C4 counterexample: on an album whose track listing returns one entry that
carries no id, the fetch performs zero secondary `sp.track` lookups and
produces zero items — not one per listing entry. -/
theorem get_items_album_counterexample :
    (noIdClient.album_tracks "a1").length = 1 ∧
    get_items_from_spotify noIdClient "album" "a1" =
      .ok ⟨[], "Unknown Album", []⟩ := ⟨rfl, rfl⟩

/-- C4 amended: the album fetch performs exactly one secondary `sp.track`
lookup for each listing entry whose id is present and non-empty, in listing
order, and the resulting item list holds exactly the corresponding full
records, one per such entry, in that order. -/
theorem get_items_album_amended (sp : SpotifyClient) (sid : String) :
    ∃ r, get_items_from_spotify sp "album" sid = .ok r ∧
      r.trackCalls = (sp.album_tracks sid).filterMap
        (fun ti => if pyTruthyStr ti.id then some (ti.id.getD "") else none) ∧
      r.items = r.trackCalls.map sp.track := by
  refine ⟨⟨(albumLoop sp (sp.album_tracks sid)).1,
           (sp.album sid).name.getD "Unknown Album",
           (albumLoop sp (sp.album_tracks sid)).2⟩, ?_, ?_, ?_⟩
  · simp [get_items_from_spotify]
  · exact (albumLoop_spec sp (sp.album_tracks sid)).1
  · exact (albumLoop_spec sp (sp.album_tracks sid)).2

/-- C5: the single-item flow — one download call straight into the downloads
directory, no collection subdirectory created — is taken exactly when the
parsed type is "track" or exactly one item was fetched; in every other case a
subdirectory named with the sanitized collection display name is created
under the downloads directory and every download call targets it.  (The
hypothesis reflects that a "track" fetch always yields one item.) -/
theorem mainDispatch_spec (url_type : String) (items : List TrackRec)
    (collection_name : String) (h : url_type = "track" → items ≠ []) :
    ∃ p, mainDispatch url_type items collection_name = some p ∧
      (((url_type = "track" ∨ items.length = 1) ∧
          p.createdDirs = [downloadsDirName] ∧
          ∀ c ∈ p.calls, c.dir = downloadsDirName) ∨
        (¬(url_type = "track" ∨ items.length = 1) ∧
          p.createdDirs = [downloadsDirName,
            pathJoin downloadsDirName (sanitize_filename collection_name)] ∧
          ∀ c ∈ p.calls, c.dir =
            pathJoin downloadsDirName (sanitize_filename collection_name))) := by
  by_cases hc : url_type = "track" ∨ items.length = 1
  · have hne : items ≠ [] := by
      rcases hc with hc | hc
      · exact h hc
      · intro he; rw [he] at hc; exact absurd hc (by simp)
    obtain ⟨track, rest, rfl⟩ := List.exists_cons_of_ne_nil hne
    refine ⟨⟨[downloadsDirName],
             [⟨downloadsDirName, build_query track, trackBase track⟩]⟩, ?_, ?_⟩
    · unfold mainDispatch
      rw [if_pos hc]
      rfl
    · left
      refine ⟨hc, rfl, ?_⟩
      intro c hcall
      simp only [List.mem_singleton] at hcall
      rw [hcall]
  · refine ⟨⟨[downloadsDirName,
              pathJoin downloadsDirName (sanitize_filename collection_name)],
             items.map fun track =>
               ⟨pathJoin downloadsDirName (sanitize_filename collection_name),
                build_query track, trackBase track⟩⟩, ?_, ?_⟩
    · unfold mainDispatch
      rw [if_neg hc]
    · right
      refine ⟨hc, rfl, ?_⟩
      intro c hcall
      simp only [List.mem_map] at hcall
      obtain ⟨track, _, rfl⟩ := hcall
      rfl

/-- Witness for `mainDispatch_spec` at a two-track album. -/
theorem mainDispatch_spec_witness :
    (("album" : String) = "track" → ([⟨none, some "S1"⟩, ⟨none, some "S2"⟩] : List TrackRec) ≠ []) ∧
    ∃ p, mainDispatch "album" ([⟨none, some "S1"⟩, ⟨none, some "S2"⟩] : List TrackRec) "My:Album" = some p ∧
      (((("album" : String) = "track" ∨ ([⟨none, some "S1"⟩, ⟨none, some "S2"⟩] : List TrackRec).length = 1) ∧
          p.createdDirs = [downloadsDirName] ∧
          ∀ c ∈ p.calls, c.dir = downloadsDirName) ∨
        (¬(("album" : String) = "track" ∨ ([⟨none, some "S1"⟩, ⟨none, some "S2"⟩] : List TrackRec).length = 1) ∧
          p.createdDirs = [downloadsDirName,
            pathJoin downloadsDirName (sanitize_filename "My:Album")] ∧
          ∀ c ∈ p.calls, c.dir =
            pathJoin downloadsDirName (sanitize_filename "My:Album"))) :=
  ⟨fun hc => absurd hc (by decide),
   mainDispatch_spec "album" [⟨none, some "S1"⟩, ⟨none, some "S2"⟩] "My:Album"
     (fun hc => absurd hc (by decide))⟩

/-- C6: in the multi-item flow over N futures of which M return a path
(`download_song` never returns an empty path, the hypothesis), the collected
list has exactly M entries and the final report line carries M; with M = 0
the run still reaches its (error) report line normally — `reportLine` is
defined on the empty collection. -/
theorem collection_report_spec (results : List (Option String)) (folder : String)
    (h : ∀ s : String, some s ∈ results → s.isEmpty = false) :
    (collectDownloaded results).length = results.countP Option.isSome ∧
    reportLine (collectDownloaded results) folder =
      (if results.countP Option.isSome = 0 then
        "Failed to download any tracks from the collection."
      else
        "Successfully downloaded " ++ toString (results.countP Option.isSome) ++
          " tracks to " ++ folder) := by
  have hlen : (collectDownloaded results).length = results.countP Option.isSome := by
    induction results with
    | nil => rfl
    | cons r rest ih =>
      have ih' := ih (fun s hs => h s (List.mem_cons_of_mem r hs))
      cases r with
      | none => simpa [collectDownloaded, List.countP_cons] using ih'
      | some s =>
        have hs : s.isEmpty = false := h s (List.mem_cons_self _ _)
        simp [collectDownloaded, hs, List.countP_cons, ih']
  refine ⟨hlen, ?_⟩
  unfold reportLine
  by_cases hz : results.countP Option.isSome = 0
  · rw [if_pos hz]
    have : (collectDownloaded results).isEmpty = true := by
      rw [List.isEmpty_iff, ← List.length_eq_zero, hlen, hz]
    rw [if_pos this]
  · rw [if_neg hz]
    have : (collectDownloaded results).isEmpty = false := by
      rw [List.isEmpty_eq_false, Ne, ← List.length_eq_zero, hlen]
      exact hz
    rw [if_neg (by rw [this]; exact Bool.false_ne_true), hlen]

/-- Witness for `collection_report_spec`: three futures, two successes and
one absence. -/
theorem collection_report_spec_witness :
    (∀ s : String, some s ∈ [some "a.mp3", none, some "b.mp3"] → s.isEmpty = false) ∧
    ((collectDownloaded [some "a.mp3", none, some "b.mp3"]).length =
        ([some "a.mp3", none, some "b.mp3"] : List (Option String)).countP Option.isSome ∧
      reportLine (collectDownloaded [some "a.mp3", none, some "b.mp3"]) "f" =
        (if ([some "a.mp3", none, some "b.mp3"] : List (Option String)).countP Option.isSome = 0 then
          "Failed to download any tracks from the collection."
        else
          "Successfully downloaded " ++
            toString (([some "a.mp3", none, some "b.mp3"] : List (Option String)).countP Option.isSome) ++
            " tracks to " ++ "f")) := by
  have hp : ∀ s : String, some s ∈ [some "a.mp3", none, some "b.mp3"] → s.isEmpty = false := by
    intro s hs
    simp only [List.mem_cons, List.not_mem_nil, or_false,
      Option.some.injEq, reduceCtorEq, false_or] at hs
    rcases hs with rfl | rfl <;> rfl
  exact ⟨hp, collection_report_spec [some "a.mp3", none, some "b.mp3"] "f" hp⟩

/-- C7: `download_song` resolves every failure of the download pipeline to an
absent result rather than an exception: a raised search error, an empty (or
missing) search result list, and a raised download/transcode error each yield
`none`. -/
theorem download_song_failure_absence (env : YdlEnv) (q d b : String) :
    (∀ e, env.extract_info ("ytsearch:" ++ q) = .error e →
      download_song env q d b = none) ∧
    (∀ info, env.extract_info ("ytsearch:" ++ q) = .ok info →
      info.entries.getD [] = [] → download_song env q d b = none) ∧
    (∀ info v vs e, env.extract_info ("ytsearch:" ++ q) = .ok info →
      info.entries = some (v :: vs) → env.download v.webpage_url = .error e →
      download_song env q d b = none) := by
  refine ⟨?_, ?_, ?_⟩
  · intro e he
    unfold download_song
    rw [he]
  · intro info hok hempty
    cases hent : info.entries with
    | none => simp [download_song, hok, hent]
    | some l =>
      cases l with
      | nil => simp [download_song, hok, hent]
      | cons v vs =>
        rw [hent] at hempty
        exact absurd hempty (by simp)
  · intro info v vs e hok hent hdl
    simp [download_song, hok, hent, hdl]

/-- Witness for `download_song_failure_absence`: an empty search result. -/
theorem download_song_failure_absence_witness :
    emptySearchEnv.extract_info ("ytsearch:" ++ "q") = .ok ⟨some []⟩ ∧
    (⟨some []⟩ : InfoDict).entries.getD [] = [] ∧
    download_song emptySearchEnv "q" "downloads" "b" = none :=
  ⟨rfl, rfl,
   (download_song_failure_absence emptySearchEnv "q" "downloads" "b").2.1 ⟨some []⟩ rfl rfl⟩

/-- C8: a successful `download_song` call returns exactly the deterministic
expected path `<dir>/<base>.mp3` and that path exists; and once the
download-and-transcode step has completed, the call succeeds precisely when a
file exists at that expected path — a file produced under any other name
leaves the check false and the call reports absence. -/
theorem download_song_postcondition (env : YdlEnv) (q d b : String) :
    (∀ r, download_song env q d b = some r →
      r = pathJoin d (b ++ ".mp3") ∧ env.pathExists (pathJoin d (b ++ ".mp3")) = true) ∧
    (∀ info v vs, env.extract_info ("ytsearch:" ++ q) = .ok info →
      info.entries = some (v :: vs) → env.download v.webpage_url = .ok () →
      ((download_song env q d b).isSome ↔
        env.pathExists (pathJoin d (b ++ ".mp3")) = true)) := by
  constructor
  · intro r hr
    unfold download_song at hr
    split at hr
    · exact absurd hr (by simp)
    split at hr
    · split at hr
      · exact absurd hr (by simp)
      · by_cases hex : env.pathExists (pathJoin d (b ++ ".mp3")) = true
        · rw [if_pos hex] at hr
          simp only [Option.some.injEq] at hr
          exact ⟨hr.symm, hex⟩
        · rw [if_neg hex] at hr
          exact absurd hr (by simp)
    · exact absurd hr (by simp)
  · intro info v vs hok hent hdl
    by_cases hex : env.pathExists (pathJoin d (b ++ ".mp3")) = true
    · simp [download_song, hok, hent, hdl, hex]
    · simp [download_song, hok, hent, hdl, hex]

/-- Witness for `download_song_postcondition`: a completed download whose
expected path exists. -/
theorem download_song_postcondition_witness :
    okEnv.extract_info ("ytsearch:" ++ "q") = .ok ⟨some [⟨some "u"⟩]⟩ ∧
    ((download_song okEnv "q" "downloads" "b").isSome ↔
      okEnv.pathExists (pathJoin "downloads" ("b" ++ ".mp3")) = true) :=
  ⟨rfl,
   (download_song_postcondition okEnv "q" "downloads" "b").2
     ⟨some [⟨some "u"⟩]⟩ ⟨some "u"⟩ [] rfl rfl rfl⟩

/-- After a completion schedule covering index `i`, future `i` holds exactly
task `i`'s own result, whatever the schedule order. -/
theorem runCompletions_get (tasks : List (Option String)) :
    ∀ (order : List Nat) (slots : Nat → Option (Option String)) (i : Nat),
      (i ∈ order ∨ slots i = some (tasks.getD i none)) →
      runCompletions tasks order slots i = some (tasks.getD i none) := by
  intro order
  induction order with
  | nil =>
    intro slots i h
    rcases h with h | h
    · exact absurd h (List.not_mem_nil i)
    · exact h
  | cons j rest ih =>
    intro slots i h
    unfold runCompletions
    apply ih
    by_cases hij : i = j
    · subst hij
      right
      simp
    · rcases h with h | h
      · rcases List.mem_cons.mp h with h' | h'
        · exact absurd h' hij
        · exact Or.inl h'
      · right
        simpa [hij] using h

/-- Reading a list back through positional defaults reproduces it. -/
theorem map_getD_range {α : Type} (l : List α) (d : α) :
    (List.range l.length).map (fun i => l.getD i d) = l := by
  induction l with
  | nil => rfl
  | cons a l ih =>
    rw [List.length_cons, List.range_succ_eq_map, List.map_cons, List.map_map]
    have h : ((fun i => (a :: l).getD i d) ∘ Nat.succ) = fun i => l.getD i d := by
      funext i
      simp [List.getD_cons_succ]
    rw [show (a :: l).getD 0 d = a from rfl, h, ih]

/-- C9: whatever order the pool's tasks complete in (any permutation of the
task indices), the multi-item flow collects its non-absent results by reading
the futures in submission order, so the collected list equals the one
obtained from the tasks in catalog order of the tracks. -/
theorem pool_collect_submission_order (items : List TrackRec)
    (outcome : TrackRec → Option String) (order : List Nat)
    (h : order.Perm (List.range items.length)) :
    collectDownloaded (joinResults
        (runCompletions (items.map outcome) order (fun _ => none)) items.length) =
      collectDownloaded (items.map outcome) := by
  have hjoin : joinResults (runCompletions (items.map outcome) order (fun _ => none))
      items.length = items.map outcome := by
    unfold joinResults
    have hmem : ∀ i ∈ List.range items.length,
        (runCompletions (items.map outcome) order (fun _ => none) i).getD none =
          (items.map outcome).getD i none := by
      intro i hi
      have hin : i ∈ order := h.mem_iff.mpr hi
      rw [runCompletions_get (items.map outcome) order (fun _ => none) i (Or.inl hin)]
      rfl
    rw [List.map_congr_left hmem]
    have : items.length = (items.map outcome).length := (List.length_map _ _).symm
    rw [this, map_getD_range]
  rw [hjoin]

/-- Witness for `pool_collect_submission_order`: three tracks completing in
the order 2, 0, 1 still collect in submission order. -/
theorem pool_collect_submission_order_witness :
    ([2, 0, 1] : List Nat).Perm
      (List.range ([⟨none, some "a"⟩, ⟨none, none⟩, ⟨none, some "b"⟩] : List TrackRec).length) ∧
    collectDownloaded (joinResults
        (runCompletions (([⟨none, some "a"⟩, ⟨none, none⟩, ⟨none, some "b"⟩] : List TrackRec).map TrackRec.name)
          [2, 0, 1] (fun _ => none))
        ([⟨none, some "a"⟩, ⟨none, none⟩, ⟨none, some "b"⟩] : List TrackRec).length) =
      collectDownloaded (([⟨none, some "a"⟩, ⟨none, none⟩, ⟨none, some "b"⟩] : List TrackRec).map TrackRec.name) :=
  ⟨by decide,
   pool_collect_submission_order [⟨none, some "a"⟩, ⟨none, none⟩, ⟨none, some "b"⟩]
     TrackRec.name [2, 0, 1] (by decide)⟩

end SpotifyDL
